import Mathlib

/-!
Verification development for the user-microservice repository: a shallow
embedding of the user model (`internal/models`), the user lifecycle service
(`internal/service`), the Postgres repository semantics
(`internal/repository/postgres_repository.go`), and the RabbitMQ
notification publisher/subscriber (`internal/notification`), together with
theorems settling the specification claims against the embedded code.

Modelling conventions:
* Go strings are Lean `String`s; `len` on a Go string is `String.utf8ByteSize`.
* Timestamps (`time.Time`, serialized as RFC3339 strings) are abstracted as
  natural-number instants; the RFC3339 encoding is injective and
  round-trips, so the abstraction maps it to `Json.num`.
* `bcrypt.GenerateFromPassword` is abstracted by an injective tagging
  function (the salt and cost parameters are irrelevant to every claim, only
  that the hash is a non-empty string distinct from the empty sanitized
  value).
* Go error values (`github.com/pkg/errors`) are modelled nominally: the
  package-level sentinel errors are an enumeration `ErrTag`, anonymous
  `errors.New` allocations are `GoError.mk`, and `errors.Wrap` is
  `GoError.wrap`.  `errors.Is` unwraps through `wrap` and succeeds only on
  the identical sentinel, exactly as Go identity comparison does.
* The database table behind the repository is a `List User`; each SQL
  statement in `postgres_repository.go` is translated to its meaning on
  that table (in particular the `SELECT` column lists, which omit the
  `password` column in every read, and `ILIKE`, implemented below with full
  SQL `LIKE` pattern semantics).
-/

namespace UserMicroservice

/-- `models.User` (internal/models, part_004).  `password` holds the bcrypt
hash once set (or `""` when sanitized / not selected). -/
structure User where
  id : String
  firstName : String
  lastName : String
  nickname : String
  password : String
  email : String
  country : String
  createdAt : Nat
  updatedAt : Nat
deriving Repr, DecidableEq

/-- The package-level sentinel error values (`service.ErrInvalidInput`,
`service.ErrEmailAlreadyExists`, `service.ErrNicknameAlreadyExists`,
`repository.ErrUserNotFound`, `repository.ErrUserExists`). -/
inductive ErrTag where
  | invalidInput
  | emailAlreadyExists
  | nicknameAlreadyExists
  | userNotFound
  | userExists
deriving Repr, DecidableEq

/-- Go error values: a sentinel, a fresh `errors.New` allocation, or a
`errors.Wrap` of an inner error with a message. -/
inductive GoError where
  | sentinel (t : ErrTag)
  | mk (msg : String)
  | wrap (inner : GoError) (msg : String)
deriving Repr, DecidableEq

/-- `errors.Is(e, sentinel t)`: unwraps the `errors.Wrap` chain and compares
by identity.  A `GoError.mk` allocation is never identical to a sentinel. -/
def errsIs : GoError → ErrTag → Bool
  | .sentinel t, t₂ => t == t₂
  | .mk _, _ => false
  | .wrap inner _, t => errsIs inner t

/-- The message of a sentinel error value. -/
def sentinelMsg : ErrTag → String
  | .invalidInput => "invalid input data"
  | .emailAlreadyExists => "email already registered"
  | .nicknameAlreadyExists => "nickname already registered"
  | .userNotFound => "user not found"
  | .userExists => "user already exists"

/-- `err.Error()`: `errors.Wrap` renders as `"msg: inner"`. -/
def errMessage : GoError → String
  | .sentinel t => sentinelMsg t
  | .mk msg => msg
  | .wrap inner msg => msg ++ ": " ++ errMessage inner

/-- Whether `needle` occurs as a contiguous sublist of `hay`. -/
def listContainsSub (hay needle : List Char) : Bool :=
  needle.isPrefixOf hay ||
    match hay with
    | [] => false
    | _ :: t => listContainsSub t needle

/-- Substring test on strings (used to state facts about error messages). -/
def strContains (s sub : String) : Bool :=
  listContainsSub s.toList sub.toList

/-- Character class `[a-zA-Z0-9._%+-]` of the email regular expression in
`(User).ValidateEmail`. -/
def isLocalChar (c : Char) : Bool :=
  c.isAlpha || c.isDigit || c == '.' || c == '_' || c == '%' || c == '+' || c == '-'

/-- Character class `[a-zA-Z0-9.-]` of the email regular expression. -/
def isDomainChar (c : Char) : Bool :=
  c.isAlpha || c.isDigit || c == '.' || c == '-'

/-- `[a-zA-Z]{2,}` anchored at the end of the string. -/
def isTldOk (l : List Char) : Bool :=
  2 ≤ l.length && l.all (fun c => c.isAlpha)

/-- Scans the domain part for a decomposition `prefix ++ "." ++ tld` with a
non-empty `[a-zA-Z0-9.-]+` prefix and a `[a-zA-Z]{2,}` tail, i.e. the
`[a-zA-Z0-9.-]+\.[a-zA-Z]{2,}$` tail of the email regular expression. -/
def domainScan (pre : List Char) : List Char → Bool
  | [] => false
  | c :: rest =>
    (c == '.' && !pre.isEmpty && pre.all isDomainChar && isTldOk rest) ||
      domainScan (pre ++ [c]) rest

/-- Splitting a character list on a separator character (the meaning of
`String.splitOn` for a one-character separator). -/
def splitOnChar (sep : Char) : List Char → List (List Char)
  | [] => [[]]
  | c :: t =>
    if c == sep then [] :: splitOnChar sep t
    else
      match splitOnChar sep t with
      | [] => [[c]]
      | h :: r => (c :: h) :: r

/-- `(User).ValidateEmail`: the anchored regular expression
`^[a-zA-Z0-9._%+-]+@[a-zA-Z0-9.-]+\.[a-zA-Z]{2,}$`.  Both character classes
exclude `@`, so a match contains exactly one `@`; the local part is a
non-empty run of `isLocalChar`, and the domain part admits a decomposition
checked by `domainScan`. -/
def validEmail (s : String) : Bool :=
  match splitOnChar '@' s.toList with
  | [l, d] => !l.isEmpty && l.all isLocalChar && domainScan [] d
  | _ => false

/-- `(User).ValidatePassword`: empty passwords and passwords shorter than 8
bytes are rejected. -/
def validatePassword (password : String) : Option GoError :=
  if password == "" then some (.mk "password cannot be empty")
  else if password.utf8ByteSize < 8 then
    some (.mk "password must be at least 8 characters long")
  else none

/-- `(User).Validate` as invoked by `models.NewUser` on the temporary user:
checks first name, last name, nickname, country, email presence, email
syntax, then the password policy, in source order. -/
def validateUserInput (firstName lastName nickname password email country : String) :
    Option GoError :=
  if firstName == "" then some (.mk "first name is required")
  else if lastName == "" then some (.mk "last name is required")
  else if nickname == "" then some (.mk "nickname is required")
  else if country == "" then some (.mk "country is required")
  else if email == "" then some (.mk "email is required")
  else if !validEmail email then some (.mk "invalid email format")
  else validatePassword password

/-- `bcrypt.GenerateFromPassword` abstracted as an injective tagging; the
hash is always a non-empty string (generation never fails at the default
cost). -/
def bcryptHash (password : String) : String :=
  "$2a$10$" ++ password

/-- `models.NewUser`: validate, hash the password, assign id and the two
timestamps.  The nondeterministic `uuid.New()` and `time.Now()` are passed
in as parameters. -/
def newUser (now : Nat) (newId : String)
    (firstName lastName nickname password email country : String) :
    Except GoError User :=
  match validateUserInput firstName lastName nickname password email country with
  | some err => .error (.wrap err "invalid input data")
  | none =>
      .ok { id := newId, firstName := firstName, lastName := lastName,
            nickname := nickname, password := bcryptHash password,
            email := email, country := country,
            createdAt := now, updatedAt := now }

/-! ### Repository (internal/repository/postgres_repository.go)

The table is a `List User`.  Every `SELECT` in the repository lists the
columns `id, first_name, last_name, nickname, email, country, created_at,
updated_at` — never `password` — so a fetched row carries an empty
`password`. -/

/-- The users table. -/
abbrev Store := List User

/-- A fetched row: the `SELECT` column list omits `password`, so the scanned
`models.User` has its zero value `""` there. -/
def selectRow (u : User) : User :=
  { u with password := "" }

/-- `(PostgresUserRepository).GetByID`: `WHERE id = $1`, `ErrUserNotFound`
when no row matches (modelled as `none`). -/
def repoGetByID (st : Store) (id : String) : Option User :=
  (st.find? (fun u => u.id == id)).map selectRow

/-- `(PostgresUserRepository).GetByEmail`: `WHERE email = $1`. -/
def repoGetByEmail (st : Store) (email : String) : Option User :=
  (st.find? (fun u => u.email == email)).map selectRow

/-- `(PostgresUserRepository).GetByNickname`: `WHERE nickname = $1`. -/
def repoGetByNickname (st : Store) (nickname : String) : Option User :=
  (st.find? (fun u => u.nickname == nickname)).map selectRow

/-- `(PostgresUserRepository).Create`: `INSERT INTO users (...)` with every
column, including the password hash.  The service always supplies a user
with non-zero id and timestamps, so the zero-value fallbacks in the Go
function are not taken. -/
def repoCreate (st : Store) (u : User) : Store :=
  st ++ [u]

/-- `(PostgresUserRepository).Update`: `SET first_name, last_name, nickname,
email, country, updated_at WHERE id` — `password` and `created_at` are not
in the `SET` list.  Returns `ErrUserNotFound` when zero rows are affected;
the in-memory argument has its `UpdatedAt` mutated to the write time before
the statement executes. -/
def repoUpdate (st : Store) (u : User) (now : Nat) :
    Except GoError (Store × User) :=
  if st.any (fun r => r.id == u.id) then
    .ok (st.map (fun r =>
          if r.id == u.id then
            { r with firstName := u.firstName, lastName := u.lastName,
                     nickname := u.nickname, email := u.email,
                     country := u.country, updatedAt := now }
          else r),
        { u with updatedAt := now })
  else .error (.sentinel .userNotFound)

/-- `(PostgresUserRepository).UpdatePassword`: `SET password, updated_at
WHERE id`; `ErrUserNotFound` on zero affected rows. -/
def repoUpdatePassword (st : Store) (id password : String) (now : Nat) :
    Except GoError Store :=
  if st.any (fun r => r.id == id) then
    .ok (st.map (fun r =>
          if r.id == id then { r with password := password, updatedAt := now }
          else r))
  else .error (.sentinel .userNotFound)

/-- `(PostgresUserRepository).Delete`: `DELETE FROM users WHERE id = $1`;
`ErrUserNotFound` on zero affected rows. -/
def repoDelete (st : Store) (id : String) : Except GoError Store :=
  if st.any (fun r => r.id == id) then
    .ok (st.filter (fun r => !(r.id == id)))
  else .error (.sentinel .userNotFound)

/-! ### SQL `ILIKE`

`List` filters are compiled to `column ILIKE $n` with the raw filter value
as the operand: SQL `LIKE` semantics (`%` matches any sequence, `_` any
single character, backslash escapes the next character), case-insensitive.
No `%` wildcards are added around the value by the repository. -/

/-- A `%` wildcard: holds when `matchRest` accepts some suffix of the
string. -/
def likeStar (matchRest : List Char → Bool) : List Char → Bool
  | [] => matchRest []
  | d :: t => matchRest (d :: t) || likeStar matchRest t

/-- SQL `LIKE` pattern matching on character lists: `%` matches any
sequence, `_` any single character, a backslash escapes the following
character, and any other character matches itself. -/
def likeMatch : List Char → List Char → Bool
  | [], s => s.isEmpty
  | '%' :: ps, s => likeStar (likeMatch ps) s
  | '_' :: ps, s =>
    (match s with
     | [] => false
     | _ :: t => likeMatch ps t)
  | '\\' :: c :: ps, s =>
    (match s with
     | [] => false
     | d :: t => c == d && likeMatch ps t)
  | c :: ps, s =>
    (match s with
     | [] => false
     | d :: t => c == d && likeMatch ps t)

/-- Postgres `ILIKE`: `LIKE` after lowercasing both operands. -/
def ilike (pattern s : String) : Bool :=
  likeMatch (pattern.toList.map Char.toLower) (s.toList.map Char.toLower)

/-- `repository.FilterOptions`. -/
structure FilterOptions where
  country : String
  email : String
  nickname : String
  firstName : String
  lastName : String
deriving Repr, DecidableEq

/-- `repository.PaginationOptions` (Go `int`s). -/
structure PaginationOptions where
  page : Int
  pageSize : Int
deriving Repr, DecidableEq

/-- The conjunction of the `ILIKE` conditions appended by `List` for each
non-empty filter field, in source order (country, email, nickname, first
name, last name). -/
def matchesFilter (f : FilterOptions) (u : User) : Bool :=
  (f.country == "" || ilike f.country u.country) &&
  (f.email == "" || ilike f.email u.email) &&
  (f.nickname == "" || ilike f.nickname u.nickname) &&
  (f.firstName == "" || ilike f.firstName u.firstName) &&
  (f.lastName == "" || ilike f.lastName u.lastName)

/-- Insert into a list sorted by `created_at` descending (one admissible
linearization of `ORDER BY created_at DESC`; ties are broken arbitrarily by
Postgres and here by original order). -/
def insertByCreatedDesc (u : User) : List User → List User
  | [] => [u]
  | v :: t =>
    if v.createdAt < u.createdAt then u :: v :: t
    else v :: insertByCreatedDesc u t

/-- `ORDER BY created_at DESC`. -/
def sortByCreatedDesc : List User → List User
  | [] => []
  | u :: t => insertByCreatedDesc u (sortByCreatedDesc t)

/-- `(PostgresUserRepository).List`: the count query is the filter
conditions alone (no pagination), the main query additionally sorts by
`created_at DESC` and applies `LIMIT pageSize OFFSET (page-1)*pageSize`
after coercing `page < 1` to `1` and `pageSize < 1` to `10`.  There is no
upper bound on `pageSize` in this function. -/
def repoList (st : Store) (f : FilterOptions) (pg : PaginationOptions) :
    List User × Nat :=
  let matching := st.filter (matchesFilter f)
  let total := matching.length
  let page : Int := if pg.page < 1 then 1 else pg.page
  let pageSize : Int := if pg.pageSize < 1 then 10 else pg.pageSize
  let offset : Int := (page - 1) * pageSize
  let rows :=
    ((sortByCreatedDesc matching).drop offset.toNat).take pageSize.toNat
  (rows.map selectRow, total)

/-! ### User lifecycle service (internal/service, part of user_service_test.go)

Each operation is embedded as a pure function over the store, additionally
returning the sequence of repository calls it issued (in order) and, for the
mutating operations, the detached notification it spawned.  Because the
spawned goroutine shares the `*models.User` pointer with the caller — which
calls `SanitizeForOutput` only after spawning — the spawned value is kept as
the pair (value at spawn time, value after the caller's sanitize); which of
the two the goroutine serializes depends on the interleaving. -/

instance {ε α : Type _} [DecidableEq ε] [DecidableEq α] :
    DecidableEq (Except ε α) := fun a b =>
  match a, b with
  | .ok x, .ok y => decidable_of_iff (x = y) (by simp)
  | .error x, .error y => decidable_of_iff (x = y) (by simp)
  | .ok _, .error _ => isFalse (fun h => Except.noConfusion h)
  | .error _, .ok _ => isFalse (fun h => Except.noConfusion h)

/-- A repository call, as issued by the service. -/
inductive RepoOp where
  | getByID (id : String)
  | getByEmail (email : String)
  | getByNickname (nickname : String)
  | create (u : User)
  | update (u : User)
  | updatePassword (id password : String)
  | delete (id : String)
  | list
deriving Repr, DecidableEq

/-- Outcome of `(UserService).CreateUser`. -/
structure CreateResult where
  res : Except GoError User
  store : Store
  trace : List RepoOp
  spawned : Option (User × User)
deriving Repr, DecidableEq

/-- `(UserService).CreateUser`: build and validate via `models.NewUser`,
pre-check email then nickname uniqueness, persist, spawn the `user.created`
notification, sanitize, return.  Repository failures other than
not-found cannot occur over the pure table model. -/
def createUser (st : Store)
    (firstName lastName nickname password email country : String)
    (now : Nat) (newId : String) : CreateResult :=
  match newUser now newId firstName lastName nickname password email country with
  | .error err => ⟨.error (.wrap err "error creating user"), st, [], none⟩
  | .ok user =>
    match repoGetByEmail st email with
    | some _ =>
        ⟨.error (.sentinel .emailAlreadyExists), st, [.getByEmail email], none⟩
    | none =>
      match repoGetByNickname st nickname with
      | some _ =>
          ⟨.error (.sentinel .nicknameAlreadyExists), st,
           [.getByEmail email, .getByNickname nickname], none⟩
      | none =>
          let st2 := repoCreate st user
          let sanitized := { user with password := "" }
          ⟨.ok sanitized, st2,
           [.getByEmail email, .getByNickname nickname, .create user],
           some (user, sanitized)⟩

/-- Outcome of a read-only service operation. -/
structure QueryResult where
  res : Except GoError User
  trace : List RepoOp
deriving Repr, DecidableEq

/-- `(UserService).GetUserByID`: empty id is `ErrInvalidInput` before any
repository call; a not-found from the repository is returned unwrapped. -/
def getUserByID (st : Store) (id : String) : QueryResult :=
  if id == "" then ⟨.error (.sentinel .invalidInput), []⟩
  else
    match repoGetByID st id with
    | none => ⟨.error (.sentinel .userNotFound), [.getByID id]⟩
    | some u => ⟨.ok { u with password := "" }, [.getByID id]⟩

/-- `(User).Update` (internal/models): empty fields are left unchanged; a
non-empty email is re-validated; `UpdatedAt` is refreshed.  In Go an email
validation failure returns after the name fields were already mutated in
place, but the caller discards the user on error, so only the success value
is observable. -/
def userUpdate (u : User) (firstName lastName nickname email country : String)
    (now : Nat) : Except GoError User :=
  let u1 := if firstName == "" then u else { u with firstName := firstName }
  let u2 := if lastName == "" then u1 else { u1 with lastName := lastName }
  let u3 := if nickname == "" then u2 else { u2 with nickname := nickname }
  if email != "" && !validEmail email then .error (.mk "invalid email format")
  else
    let u4 := if email == "" then u3 else { u3 with email := email }
    let u5 := if country == "" then u4 else { u4 with country := country }
    .ok { u5 with updatedAt := now }

/-- `(UserService).validateAndCheckEmail`: only when the new email is
non-empty and differs from the current one, validate its syntax and look it
up; also returns the repository calls made. -/
def validateAndCheckEmail (st : Store) (user : User) (email : String) :
    Except GoError Unit × List RepoOp :=
  if email != "" && email != user.email then
    if !validEmail email then (.error (.mk "invalid email format"), [])
    else
      match repoGetByEmail st email with
      | some _ => (.error (.sentinel .emailAlreadyExists), [.getByEmail email])
      | none => (.ok (), [.getByEmail email])
  else (.ok (), [])

/-- `(UserService).validateAndCheckNickname`: only when the new nickname is
non-empty and differs from the current one. -/
def validateAndCheckNickname (st : Store) (user : User) (nickname : String) :
    Except GoError Unit × List RepoOp :=
  if nickname != "" && nickname != user.nickname then
    match repoGetByNickname st nickname with
    | some _ => (.error (.sentinel .nicknameAlreadyExists), [.getByNickname nickname])
    | none => (.ok (), [.getByNickname nickname])
  else (.ok (), [])

/-- Outcome of `(UserService).UpdateUser`. -/
structure UpdateResult where
  res : Except GoError User
  store : Store
  trace : List RepoOp
  spawned : Option (User × User)
deriving Repr, DecidableEq

/-- `(UserService).UpdateUser`: empty id short-circuits; fetch, conditional
email/nickname checks, partial field update, persist, spawn the
`user.updated` notification, sanitize, return.  `now` is the instant taken
by `(User).Update`, `nowRepo` the later instant taken by the repository
`UPDATE`. -/
def updateUser (st : Store)
    (id firstName lastName nickname email country : String)
    (now nowRepo : Nat) : UpdateResult :=
  if id == "" then ⟨.error (.sentinel .invalidInput), st, [], none⟩
  else
    match repoGetByID st id with
    | none =>
        ⟨.error (.wrap (.sentinel .userNotFound) "error fetching user for update"),
         st, [.getByID id], none⟩
    | some user =>
      match validateAndCheckEmail st user email with
      | (.error err, etr) =>
          ⟨.error (.wrap err "error validating email"), st,
           .getByID id :: etr, none⟩
      | (.ok _, etr) =>
        match validateAndCheckNickname st user nickname with
        | (.error err, ntr) =>
            ⟨.error (.wrap err "error validating nickname"), st,
             .getByID id :: etr ++ ntr, none⟩
        | (.ok _, ntr) =>
          match userUpdate user firstName lastName nickname email country now with
          | .error err =>
              ⟨.error (.wrap err "error updating user fields"), st,
               .getByID id :: etr ++ ntr, none⟩
          | .ok u2 =>
            match repoUpdate st u2 nowRepo with
            | .error err =>
                ⟨.error (.wrap err "error updating user"), st,
                 .getByID id :: etr ++ ntr ++ [.update u2], none⟩
            | .ok (st2, u3) =>
                let sanitized := { u3 with password := "" }
                ⟨.ok sanitized, st2,
                 .getByID id :: etr ++ ntr ++ [.update u2],
                 some (u3, sanitized)⟩

/-- Outcome of a result-less service command. -/
structure CommandResult where
  res : Except GoError Unit
  store : Store
  trace : List RepoOp
deriving Repr, DecidableEq

/-- `(UserService).UpdatePassword`: empty id or empty password short-circuit
with `ErrInvalidInput`; fetch for existence, validate and hash via
`(User).UpdatePassword`, persist only password and `updated_at`.  No
notification is spawned. -/
def updatePassword (st : Store) (id password : String) (now : Nat) :
    CommandResult :=
  if id == "" || password == "" then ⟨.error (.sentinel .invalidInput), st, []⟩
  else
    match repoGetByID st id with
    | none =>
        ⟨.error (.wrap (.sentinel .userNotFound) "error fetching user for password update"),
         st, [.getByID id]⟩
    | some _ =>
      match validatePassword password with
      | some err =>
          ⟨.error (.wrap err "error updating password"), st, [.getByID id]⟩
      | none =>
        let hash := bcryptHash password
        match repoUpdatePassword st id hash now with
        | .error err =>
            ⟨.error (.wrap err "error persisting password update"), st,
             [.getByID id, .updatePassword id hash]⟩
        | .ok st2 => ⟨.ok (), st2, [.getByID id, .updatePassword id hash]⟩

/-- Outcome of `(UserService).DeleteUser`; `spawned` carries the id of the
`user.deleted` notification it dispatches. -/
structure DeleteResult where
  res : Except GoError Unit
  store : Store
  trace : List RepoOp
  spawned : Option String
deriving Repr, DecidableEq

/-- `(UserService).DeleteUser`: empty id short-circuits; fetch for existence
so an absent id surfaces not-found; delete; spawn the `user.deleted`
notification carrying only the id. -/
def deleteUser (st : Store) (id : String) : DeleteResult :=
  if id == "" then ⟨.error (.sentinel .invalidInput), st, [], none⟩
  else
    match repoGetByID st id with
    | none =>
        ⟨.error (.wrap (.sentinel .userNotFound) "error fetching user for deletion"),
         st, [.getByID id], none⟩
    | some _ =>
      match repoDelete st id with
      | .error err =>
          ⟨.error (.wrap err "error removing user"), st,
           [.getByID id, .delete id], none⟩
      | .ok st2 => ⟨.ok (), st2, [.getByID id, .delete id], some id⟩

/-- Outcome of `(UserService).ListUsers`. -/
structure ListResult where
  users : List User
  total : Nat
  trace : List RepoOp
deriving Repr, DecidableEq

/-- `(UserService).ListUsers`: passes filters and pagination through to the
repository unchanged, then clears the password of every returned user. -/
def listUsers (st : Store)
    (country email nickname firstname lastname : String)
    (page pageSize : Int) : ListResult :=
  let pair :=
    repoList st ⟨country, email, nickname, firstname, lastname⟩ ⟨page, pageSize⟩
  ⟨pair.1.map (fun u => { u with password := "" }), pair.2, [.list]⟩

/-! ### Context propagation of the detached notification task

`context.Context` is modelled by its observable done-signal: a predicate on
(discrete) time.  `context.WithTimeout(parent, d)` taken at instant `start`
is done at `t` when the parent is done at `t` or the deadline `start + d`
has passed — a child context inherits its parent's cancellation. -/

/-- A context's done-signal over time. -/
abbrev Ctx := Nat → Bool

/-- `context.Background()`. -/
def backgroundCtx : Ctx := fun _ => false

/-- A context whose `cancel` is invoked at instant `t0`. -/
def cancelledAt (t0 : Nat) : Ctx := fun t => Nat.ble t0 t

/-- `context.WithTimeout(parent, d)` created at instant `start`. -/
def contextWithTimeout (parent : Ctx) (start d : Nat) : Ctx :=
  fun t => parent t || Nat.ble (start + d) t

/-- `notificationTimeout = 5 * time.Second` (internal/service), in
seconds. -/
def notificationTimeout : Nat := 5

/-- The context under which `(UserService).sendNotification` runs the
detached dispatch spawned at instant `spawn`:
`context.WithTimeout(ctx, notificationTimeout)` where `ctx` is the
caller's context. -/
def sendNotificationCtx (caller : Ctx) (spawn : Nat) : Ctx :=
  contextWithTimeout caller spawn notificationTimeout

/-! ### Event wire format and subscriber (internal/notification, part_003)

JSON documents are their parse trees; a delivery body is either `nil`, a
non-empty byte sequence that is not valid JSON, or a valid document.
`encoding/json` marshalling of `models.User` follows its struct tags:
`password,omitempty` drops an empty password; timestamps appear as their
(abstracted) RFC3339 instants. -/

/-- A JSON document. -/
inductive Json where
  | null
  | bool (b : Bool)
  | num (n : Nat)
  | str (s : String)
  | arr (elems : List Json)
  | obj (fields : List (String × Json))
deriving Repr

/-- Key lookup in a JSON object; `encoding/json` keeps the last occurrence
of a duplicated key. -/
def jsonLookup (fields : List (String × Json)) (key : String) : Option Json :=
  fields.foldl (fun acc kv => if kv.1 == key then some kv.2 else acc) none

/-- Field access on a JSON object value. -/
def jsonObjField (j : Json) (key : String) : Option Json :=
  match j with
  | .obj fields => jsonLookup fields key
  | _ => none

/-- `json.Marshal` of a `models.User`, per its struct tags in field order;
`password,omitempty` omits the field when the password is empty. -/
def marshalUser (u : User) : Json :=
  .obj ([("id", .str u.id), ("first_name", .str u.firstName),
         ("last_name", .str u.lastName), ("nickname", .str u.nickname)]
    ++ (if u.password == "" then [] else [("password", .str u.password)])
    ++ [("email", .str u.email), ("country", .str u.country),
        ("created_at", .num u.createdAt), ("updated_at", .num u.updatedAt)])

/-- `notification.Event`: the envelope `{type, timestamp, payload}`. -/
structure Event where
  type : String
  timestamp : Nat
  payload : Json
deriving Repr

/-- `json.Marshal` of an `Event`. -/
def marshalEvent (ev : Event) : Json :=
  .obj [("type", .str ev.type), ("timestamp", .num ev.timestamp),
        ("payload", ev.payload)]

/-- The envelope built by
`(RabbitMQNotificationService).NotifyUserCreated`; the payload is the user
as serialized at dispatch time. -/
def notifyUserCreatedEvent (u : User) (ts : Nat) : Event :=
  ⟨"user.created", ts, marshalUser u⟩

/-- The envelope built by `(RabbitMQNotificationService).NotifyUserUpdated`. -/
def notifyUserUpdatedEvent (u : User) (ts : Nat) : Event :=
  ⟨"user.updated", ts, marshalUser u⟩

/-- The envelope built by `(RabbitMQNotificationService).NotifyUserDeleted`:
payload `{"id": userID}`. -/
def notifyUserDeletedEvent (userID : String) (ts : Nat) : Event :=
  ⟨"user.deleted", ts, .obj [("id", .str userID)]⟩

/-- A delivery body (`amqp.Delivery.Body`): `nil`, non-empty bytes that are
not valid JSON, or a valid JSON document. -/
inductive Body where
  | null
  | malformed (raw : String)
  | val (j : Json)
deriving Repr

/-- `json.Unmarshal` of an envelope: a JSON object whose `type` is a string
(or absent/null, leaving the zero value) and whose `timestamp` is a
timestamp (or absent/null); `payload` takes any document.  Non-object,
non-null documents fail. -/
def parseEvent (j : Json) : Except String Event :=
  match j with
  | .null => .ok ⟨"", 0, .null⟩
  | .obj fields => do
    let ty ← match jsonLookup fields "type" with
      | none => Except.ok ""
      | some .null => Except.ok ""
      | some (.str s) => Except.ok s
      | some _ => Except.error "cannot unmarshal into struct field Event.type"
    let ts ← match jsonLookup fields "timestamp" with
      | none => Except.ok 0
      | some .null => Except.ok 0
      | some (.num n) => Except.ok n
      | some _ => Except.error "cannot unmarshal into struct field Event.timestamp"
    let payload := (jsonLookup fields "payload").getD .null
    .ok ⟨ty, ts, payload⟩
  | _ => .error "cannot unmarshal into Go value of type notification.Event"

/-- Deserialization of a delivery body as performed on the non-nil branch of
`processMessage`. -/
def deserializeBody : Body → Except String Event
  | .null => .error "unexpected end of JSON input"
  | .malformed _ => .error "invalid character"
  | .val j => parseEvent j

/-- A string field of an unmarshalled user; absent or null leaves the zero
value. -/
def jsonGetStr (fields : List (String × Json)) (key : String) :
    Except String String :=
  match jsonLookup fields key with
  | none => .ok ""
  | some .null => .ok ""
  | some (.str s) => .ok s
  | some _ => .error ("cannot unmarshal struct field " ++ key)

/-- A timestamp field of an unmarshalled user; absent or null leaves the
zero value. -/
def jsonGetNum (fields : List (String × Json)) (key : String) :
    Except String Nat :=
  match jsonLookup fields key with
  | none => .ok 0
  | some .null => .ok 0
  | some (.num n) => .ok n
  | some _ => .error ("cannot unmarshal struct field " ++ key)

/-- `json.Unmarshal` of an object into `models.User`, per its struct
tags. -/
def parseUserJson (fields : List (String × Json)) : Except String User := do
  let id ← jsonGetStr fields "id"
  let firstName ← jsonGetStr fields "first_name"
  let lastName ← jsonGetStr fields "last_name"
  let nickname ← jsonGetStr fields "nickname"
  let password ← jsonGetStr fields "password"
  let email ← jsonGetStr fields "email"
  let country ← jsonGetStr fields "country"
  let createdAt ← jsonGetNum fields "created_at"
  let updatedAt ← jsonGetNum fields "updated_at"
  .ok { id := id, firstName := firstName, lastName := lastName,
        nickname := nickname, password := password, email := email,
        country := country, createdAt := createdAt, updatedAt := updatedAt }

/-- A handler capability invocation (`EventHandlerInterface`). -/
inductive HandlerCall where
  | created (u : User)
  | updated (u : User)
  | deleted (id : String)
deriving Repr, DecidableEq

/-- Observable outcome of `processMessage` on one delivery: whether the
message was acknowledged, which handlers ran (in order), and the
error/warning log lines emitted. -/
structure ProcessResult where
  acked : Bool
  calls : List HandlerCall
  logs : List String
deriving Repr, DecidableEq

/-- `(RabbitMQSubscriber).handleUserCreated`: if the payload type-asserts to
a JSON object, re-marshal it and unmarshal into `models.User`, then invoke
the `created` handler; a non-object payload returns silently. -/
def handleUserCreated (ev : Event) : List HandlerCall × List String :=
  match ev.payload with
  | .obj fields =>
    match parseUserJson fields with
    | .ok u => ([.created u], [])
    | .error _ => ([], ["Failed to unmarshal payload to user"])
  | _ => ([], [])

/-- `(RabbitMQSubscriber).handleUserUpdated`. -/
def handleUserUpdated (ev : Event) : List HandlerCall × List String :=
  match ev.payload with
  | .obj fields =>
    match parseUserJson fields with
    | .ok u => ([.updated u], [])
    | .error _ => ([], ["Failed to unmarshal payload to user"])
  | _ => ([], [])

/-- `(RabbitMQSubscriber).handleUserDeleted`: requires the payload to be an
object with a string `id`. -/
def handleUserDeleted (ev : Event) : List HandlerCall × List String :=
  match ev.payload with
  | .obj fields =>
    match jsonLookup fields "id" with
    | some (.str id) => ([.deleted id], [])
    | _ => ([], ["ID not found or invalid in payload"])
  | _ => ([], ["Payload is not of the expected type"])

/-- `(RabbitMQSubscriber).processMessage`: a `nil` body is acknowledged
immediately without processing; for every other body the deferred
`msg.Ack(false)` registered before deserialization runs on function exit,
so the message is acknowledged on every path, including deserialization
failure.  Dispatch is by the `type` tag; an unrecognized tag is logged and
falls through to the acknowledgment.  (`logs` records the error/warning
log lines.) -/
def processMessage (body : Body) : ProcessResult :=
  match body with
  | .null => ⟨true, [], ["Received empty message"]⟩
  | other =>
    match deserializeBody other with
    | .error _ => ⟨true, [], ["Failed to decode message"]⟩
    | .ok ev =>
      if ev.type == "user.created" then
        let step := handleUserCreated ev
        ⟨true, step.1, step.2⟩
      else if ev.type == "user.updated" then
        let step := handleUserUpdated ev
        ⟨true, step.1, step.2⟩
      else if ev.type == "user.deleted" then
        let step := handleUserDeleted ev
        ⟨true, step.1, step.2⟩
      else ⟨true, [], ["Unknown event type"]⟩

/-- The JSON document the detached created-notification serializes, given
which side of the caller's `SanitizeForOutput` the goroutine's
`json.Marshal` lands on: the two components of `CreateResult.spawned` are
the shared user value at spawn time and after the sanitize. -/
def spawnedPayloadAt (spawned : Option (User × User)) (beforeSanitize : Bool) :
    Option Json :=
  spawned.map (fun pr => marshalUser (if beforeSanitize then pr.1 else pr.2))

/-- The error component of a service result, if any. -/
def errOf {α : Type _} : Except GoError α → Option GoError
  | .error e => some e
  | .ok _ => none

/-- A table of 101 rows matching an empty filter, used to probe the absence
of a page-size cap. -/
def capStore : Store :=
  List.replicate 101
    { id := "u", firstName := "f", lastName := "l", nickname := "n",
      password := "", email := "e@x.com", country := "c",
      createdAt := 0, updatedAt := 0 }

/-- A stored user whose country `"UKX"` strictly contains `"UK"`. -/
def ukxUser : User :=
  { id := "u1", firstName := "A", lastName := "B", nickname := "N",
    password := "", email := "a@b.com", country := "UKX",
    createdAt := 0, updatedAt := 0 }

/-- A stored user whose country is `"uk"`, differing from the filter value
`"UK"` only in case. -/
def ukUser : User :=
  { id := "u2", firstName := "C", lastName := "D", nickname := "M",
    password := "", email := "c@d.com", country := "uk",
    createdAt := 1, updatedAt := 1 }

/-! ## Theorems settling the claims -/

/-- Claim C1 (code bug, evaluated at the failing input): on the concrete
input from the specification's scenario (§8), `CreateUser` succeeds and
returns a sanitized user, but the spawned `user.created` dispatch shares
the `*models.User` pointer with the caller, which runs `SanitizeForOutput`
only after spawning; in the interleaving where the goroutine's
`json.Marshal` runs first, the event payload contains the bcrypt hash
under the `"password"` key, violating the invariant that no notification
payload carries the password.  (Only the post-sanitize interleaving yields
a password-free payload.) -/
theorem c1_created_event_password_leak :
    (createUser [] "Alice" "Bob" "AB123" "supersecurepassword" "alice@bob.com"
        "UK" 0 "id-1").res =
      .ok { id := "id-1", firstName := "Alice", lastName := "Bob",
            nickname := "AB123", password := "", email := "alice@bob.com",
            country := "UK", createdAt := 0, updatedAt := 0 } ∧
    (spawnedPayloadAt
        (createUser [] "Alice" "Bob" "AB123" "supersecurepassword"
          "alice@bob.com" "UK" 0 "id-1").spawned true).bind
        (fun j => jsonObjField j "password") =
      some (.str (bcryptHash "supersecurepassword")) ∧
    bcryptHash "supersecurepassword" ≠ "" ∧
    (spawnedPayloadAt
        (createUser [] "Alice" "Bob" "AB123" "supersecurepassword"
          "alice@bob.com" "UK" 0 "id-1").spawned false).bind
        (fun j => jsonObjField j "password") = none :=
  ⟨rfl, rfl, by decide, rfl⟩

/-- Claim C2 (counterexample): a delivered message with a non-empty body
that fails to deserialize IS acknowledged — the deferred `msg.Ack(false)`
registered before `json.Unmarshal` runs on the failure path — contradicting
the claim that such a message is left unacknowledged. -/
theorem c2_parse_failure_acked :
    (processMessage (Body.malformed "not json")).acked = true ∧
    (processMessage (Body.malformed "not json")).logs =
      ["Failed to decode message"] :=
  ⟨rfl, rfl⟩

/-- Claim C2 (amended): for every delivered message with a non-empty body
that fails to deserialize as an event envelope, the subscriber logs the
failure, invokes no handler, and acknowledges the message (so it does not
remain on the queue). -/
theorem c2_amended (b : Body) (hnn : b ≠ Body.null)
    (hfail : ∃ msg, deserializeBody b = .error msg) :
    processMessage b =
      { acked := true, calls := [], logs := ["Failed to decode message"] } := by
  obtain ⟨msg, hmsg⟩ := hfail
  cases b with
  | null => exact absurd rfl hnn
  | malformed raw => rfl
  | val j => simp [processMessage, hmsg]

/-- Witness for `c2_amended` at the concrete body `"{"` (non-empty,
invalid JSON). -/
theorem c2_amended_witness :
    processMessage (Body.malformed "x7") =
      { acked := true, calls := [], logs := ["Failed to decode message"] } :=
  c2_amended (Body.malformed "x7") (by simp) ⟨"invalid character", rfl⟩

/-- Claim C4 (code bug, evaluated at the failing input): the context of the
detached notification dispatch is `context.WithTimeout` derived from the
*caller's* context, so it inherits the caller's cancellation.  With the
dispatch spawned at instant 0 and the caller's context cancelled at
instant 1 — after the operation returned — the dispatch context is already
done at instant 1, before its own 5-second timeout expires; under a
background (never-cancelled) caller context it would not be. -/
theorem c4_caller_cancellation_propagates :
    sendNotificationCtx (cancelledAt 1) 0 1 = true ∧
    sendNotificationCtx backgroundCtx 0 1 = false ∧
    1 < notificationTimeout := by
  decide

/-- Claim C6 (counterexample): with the single stored user whose country is
`"UKX"` — which strictly contains the filter value `"UK"` as a substring —
`ListUsers` with country filter `"UK"` returns no users and a total of 0:
the repository passes the raw value to `ILIKE` without adding `%`
wildcards, so a wildcard-free filter is a case-insensitive exact match,
not a substring match. -/
theorem c6_counterexample :
    (listUsers [ukxUser] "UK" "" "" "" "" 1 10).users = [] ∧
    (listUsers [ukxUser] "UK" "" "" "" "" 1 10).total = 0 :=
  ⟨rfl, rfl⟩

/-- Claim C6 (amended): each non-empty filter value is interpreted as a SQL
`ILIKE` pattern against the stored value — case-insensitive, with `%`/`_`
wildcards honoured, and exact (up to case) when the value carries no
wildcards: the filter `"UK"` matches the stored country `"uk"` but not
`"UKX"`, while the wildcarded filter `"%UK%"` matches both. -/
theorem c6_amended :
    (listUsers [ukxUser, ukUser] "UK" "" "" "" "" 1 10).users = [ukUser] ∧
    (listUsers [ukxUser, ukUser] "UK" "" "" "" "" 1 10).total = 1 ∧
    (listUsers [ukxUser, ukUser] "%UK%" "" "" "" "" 1 10).users =
      [ukUser, ukxUser] ∧
    (listUsers [ukxUser, ukUser] "%UK%" "" "" "" "" 1 10).total = 2 ∧
    ilike "UK" "uk" = true ∧ ilike "UK" "UKX" = false ∧
    ilike "%uk%" "UKX" = true :=
  ⟨rfl, rfl, rfl, rfl, rfl, rfl, rfl⟩

/-- Claim C5 (counterexample): `ListUsers` over a table of 101 matching
rows with `page = 1, pageSize = 101` returns 101 users — the repository
coerces only `pageSize < 1` and applies no upper cap, so a page larger
than 100 is served as requested. -/
theorem c5_counterexample :
    100 < (listUsers capStore "" "" "" "" "" 1 101).users.length := by
  decide

/-- Claim C10: `UpdateUser` and `DeleteUser` with an empty id, and
`UpdatePassword` with an empty id or an empty password, return the
`ErrInvalidInput` sentinel immediately: no repository call is issued
(empty trace), the store is returned unchanged, and no notification is
spawned. -/
theorem c10_empty_id_short_circuit (st : Store)
    (firstName lastName nickname email country password id : String)
    (now nowRepo : Nat) :
    updateUser st "" firstName lastName nickname email country now nowRepo =
      ⟨.error (.sentinel .invalidInput), st, [], none⟩ ∧
    deleteUser st "" = ⟨.error (.sentinel .invalidInput), st, [], none⟩ ∧
    updatePassword st "" password now =
      ⟨.error (.sentinel .invalidInput), st, []⟩ ∧
    updatePassword st id "" now =
      ⟨.error (.sentinel .invalidInput), st, []⟩ := by
  refine ⟨rfl, rfl, rfl, ?_⟩
  simp [updatePassword]

/-! Helper lemmas. -/

theorem string_toList_append (a b : String) :
    (a ++ b).toList = a.toList ++ b.toList := by
  cases a
  cases b
  rfl

theorem string_append_assoc (a b c : String) :
    (a ++ b) ++ c = a ++ (b ++ c) := by
  cases a
  cases b
  cases c
  exact congrArg String.mk (List.append_assoc _ _ _)

theorem isPrefixOf_append_self (needle rest : List Char) :
    needle.isPrefixOf (needle ++ rest) = true := by
  induction needle with
  | nil => simp [List.isPrefixOf]
  | cons c t ih => simp [List.isPrefixOf, ih]

theorem listContainsSub_here (hay needle : List Char)
    (h : needle.isPrefixOf hay = true) : listContainsSub hay needle = true := by
  cases hay <;> simp [listContainsSub, h]

theorem listContainsSub_append_left (pre hay needle : List Char)
    (h : listContainsSub hay needle = true) :
    listContainsSub (pre ++ hay) needle = true := by
  induction pre with
  | nil => simpa using h
  | cons c t ih =>
    rw [List.cons_append]
    simp [listContainsSub, ih]

theorem strContains_middle (pre mid suf : String) :
    strContains (pre ++ (mid ++ suf)) mid = true := by
  unfold strContains
  rw [string_toList_append, string_toList_append]
  exact listContainsSub_append_left _ _ _
    (listContainsSub_here _ _ (isPrefixOf_append_self _ _))

theorem validateUserInput_mk (f l n p e c : String) (err : GoError)
    (h : validateUserInput f l n p e c = some err) : ∃ msg, err = .mk msg := by
  unfold validateUserInput validatePassword at h
  split_ifs at h
  all_goals (injection h with h2; exact ⟨_, h2.symm⟩)

/-- Claim C3 (counterexample): on the concrete input with a 5-character
password (all other fields valid), `CreateUser` returns an error, but
`errors.Is` against `ErrInvalidInput` is false: the validation failure is a
fresh `errors.New` value wrapped with the *message* "invalid input data",
never the `ErrInvalidInput` sentinel itself. -/
theorem c3_counterexample :
    (errOf (createUser [] "John" "Travolta" "John123" "short"
        "john@gggmail.com" "us" 0 "id-9").res).map
      (fun err => errsIs err .invalidInput) = some false := rfl

/-- Claim C3 (amended): when any validation check fails, `CreateUser`
returns the validation failure wrapped as
`"error creating user: invalid input data: <check message>"` — a non-nil
error whose message contains `"invalid input data"` but which is not
identified by `errors.Is` against `ErrInvalidInput` — without touching the
store or the repository; and when every earlier check passes and the
password is non-empty but shorter than 8 bytes, the message names the
password length constraint. -/
theorem c3_amended (st : Store) (f l n p e c : String) (now : Nat)
    (newId : String) (err : GoError)
    (hval : validateUserInput f l n p e c = some err) :
    createUser st f l n p e c now newId =
      ⟨.error (.wrap (.wrap err "invalid input data") "error creating user"),
       st, [], none⟩ ∧
    errsIs (.wrap (.wrap err "invalid input data") "error creating user")
      .invalidInput = false ∧
    strContains
      (errMessage (.wrap (.wrap err "invalid input data") "error creating user"))
      "invalid input data" = true ∧
    (f ≠ "" → l ≠ "" → n ≠ "" → c ≠ "" → e ≠ "" → validEmail e = true →
      p ≠ "" → p.utf8ByteSize < 8 →
      err = .mk "password must be at least 8 characters long" ∧
      strContains
        (errMessage (.wrap (.wrap err "invalid input data") "error creating user"))
        "password must be at least 8 characters long" = true) := by
  obtain ⟨msg, hmsg⟩ := validateUserInput_mk f l n p e c err hval
  refine ⟨by simp [createUser, newUser, hval], by rw [hmsg]; rfl, ?_, ?_⟩
  · show strContains
      ("error creating user" ++ ": " ++
        ("invalid input data" ++ ": " ++ errMessage err))
      "invalid input data" = true
    rw [string_append_assoc "invalid input data" ": " (errMessage err)]
    exact strContains_middle _ _ _
  · intro hf hl hn hc he hemail hp h8
    have : validateUserInput f l n p e c =
        some (.mk "password must be at least 8 characters long") := by
      simp [validateUserInput, validatePassword, hf, hl, hn, hc, he, hemail,
        hp, h8]
    rw [hval] at this
    injection this with h2
    subst h2
    exact ⟨rfl, by decide⟩

/-- Witness for `c3_amended` at the concrete input with password `"pw"`. -/
theorem c3_amended_witness :
    createUser [] "John" "Travolta" "John123" "pw" "john@gggmail.com" "us"
        0 "id-8" =
      ⟨.error (.wrap (.wrap (.mk "password must be at least 8 characters long")
          "invalid input data") "error creating user"), [], [], none⟩ ∧
    errsIs (.wrap (.wrap (.mk "password must be at least 8 characters long")
        "invalid input data") "error creating user") .invalidInput = false ∧
    strContains
      (errMessage (.wrap (.wrap (.mk "password must be at least 8 characters long")
        "invalid input data") "error creating user"))
      "password must be at least 8 characters long" = true := by
  have h := c3_amended [] "John" "Travolta" "John123" "pw" "john@gggmail.com"
    "us" 0 "id-8" (.mk "password must be at least 8 characters long") rfl
  exact ⟨h.1, h.2.1,
    (h.2.2.2 (by decide) (by decide) (by decide) (by decide) (by decide)
      (by decide) (by decide) (by decide)).2⟩

/-- Claim C5 (amended): for every `ListUsers` call, a page number ≤ 0 is
coerced to 1 and a page size ≤ 0 to the default of 10, and the returned
total equals the number of users matching the filters across all pages,
independent of page and page size; no upper cap on the page size is applied
by the service or the repository (the 100 cap exists only at the HTTP
boundary, which replaces out-of-range values by the default). -/
theorem c5_amended (st : Store) (c e n f l : String) (p s : Int) :
    (listUsers st c e n f l p s).total =
      (st.filter (matchesFilter ⟨c, e, n, f, l⟩)).length ∧
    (p ≤ 0 → listUsers st c e n f l p s = listUsers st c e n f l 1 s) ∧
    (s ≤ 0 → listUsers st c e n f l p s = listUsers st c e n f l p 10) := by
  refine ⟨rfl, ?_, ?_⟩
  · intro hp
    have hp1 : p < 1 := by omega
    simp [listUsers, repoList, if_pos hp1]
  · intro hs
    have hs1 : s < 1 := by omega
    simp [listUsers, repoList, if_pos hs1]

/-- Witness for `c5_amended` at a concrete store and out-of-range
pagination. -/
theorem c5_amended_witness :
    (listUsers [ukUser] "" "" "" "" "" 0 (-3)).total = 1 ∧
    listUsers [ukUser] "" "" "" "" "" 0 (-3) =
      listUsers [ukUser] "" "" "" "" "" 1 (-3) ∧
    listUsers [ukUser] "" "" "" "" "" 0 (-3) =
      listUsers [ukUser] "" "" "" "" "" 0 10 := by
  have h := c5_amended [ukUser] "" "" "" "" "" 0 (-3)
  exact ⟨h.1, h.2.1 (by norm_num), h.2.2 (by norm_num)⟩

/-- Claim C7: for every `CreateUser` call that passes validation, the
uniqueness pre-check consults the repository by email first and, only when
that finds nothing, by nickname: an existing email yields exactly
`ErrEmailAlreadyExists` after the single `GetByEmail` call, an existing
nickname yields `ErrNicknameAlreadyExists` after `GetByEmail` then
`GetByNickname`, and in both failure cases the trace contains no `Create`
and the store is unchanged. -/
theorem c7_uniqueness_precheck (st : Store) (f l n p e c : String)
    (now : Nat) (newId : String)
    (hval : validateUserInput f l n p e c = none) :
    ((repoGetByEmail st e).isSome = true →
      createUser st f l n p e c now newId =
        ⟨.error (.sentinel .emailAlreadyExists), st, [.getByEmail e], none⟩) ∧
    (repoGetByEmail st e = none → (repoGetByNickname st n).isSome = true →
      createUser st f l n p e c now newId =
        ⟨.error (.sentinel .nicknameAlreadyExists), st,
         [.getByEmail e, .getByNickname n], none⟩) := by
  constructor
  · intro hemail
    obtain ⟨u, hu⟩ := Option.isSome_iff_exists.mp hemail
    simp [createUser, newUser, hval, hu]
  · intro hemail hnick
    obtain ⟨u, hu⟩ := Option.isSome_iff_exists.mp hnick
    simp [createUser, newUser, hval, hemail, hu]

/-- Witness for `c7_uniqueness_precheck`: against the store holding
`ukxUser` (email `"a@b.com"`, nickname `"N"`), creating with the same email
conflicts on email; creating with a fresh email and the same nickname
conflicts on nickname. -/
theorem c7_uniqueness_precheck_witness :
    createUser [ukxUser] "John" "Travolta" "AB123" "password123" "a@b.com"
        "US" 0 "id-3" =
      ⟨.error (.sentinel .emailAlreadyExists), [ukxUser],
       [.getByEmail "a@b.com"], none⟩ ∧
    createUser [ukxUser] "John" "Travolta" "N" "password123" "new@x.com"
        "US" 0 "id-4" =
      ⟨.error (.sentinel .nicknameAlreadyExists), [ukxUser],
       [.getByEmail "new@x.com", .getByNickname "N"], none⟩ :=
  ⟨(c7_uniqueness_precheck [ukxUser] "John" "Travolta" "AB123" "password123"
      "a@b.com" "US" 0 "id-3" rfl).1 rfl,
   (c7_uniqueness_precheck [ukxUser] "John" "Travolta" "N" "password123"
      "new@x.com" "US" 0 "id-4" rfl).2 rfl rfl⟩

theorem repoGetByID_map_update (st : List User) (id : String) (r : User)
    (upd : User → User)
    (hfind : st.find? (fun u => u.id == id) = some r)
    (hstable : ∀ x, (upd x).id = x.id) :
    (st.map (fun x => if x.id = id then upd x else x)).find?
        (fun u => u.id == id) = some (upd r) := by
  induction st with
  | nil => simp at hfind
  | cons x t ih =>
    by_cases hx : x.id = id
    · have hfx : x = r := by
        have hh : List.find? (fun u => u.id == id) (x :: t) = some x :=
          List.find?_cons_of_pos _ (by simp [hx])
        rw [hh] at hfind
        injection hfind
      cases hfx
      simp only [List.map_cons, if_pos hx]
      exact List.find?_cons_of_pos _ (by simp [hstable, hx])
    · have hft : List.find? (fun u => u.id == id) t = some r := by
        rw [List.find?_cons_of_neg _ (by simp [hx])] at hfind
        exact hfind
      simp only [List.map_cons, if_neg hx]
      rw [List.find?_cons_of_neg _ (by simp [hx])]
      exact ih hft

/-- Claim C8: for an existing user (the first stored row with the given
id), `UpdateUser` with only `country` non-empty succeeds; both the returned
user and the row read back from the updated store keep the previous first
name, last name, nickname, email and `created_at`, with only `country` and
`updated_at` replaced (and the password cleared in every returned
representation). -/
theorem c8_update_country_only (st : Store) (id country : String) (r : User)
    (now nowRepo : Nat) (hid : id ≠ "") (hc : country ≠ "")
    (hfind : st.find? (fun u => u.id == id) = some r) :
    (updateUser st id "" "" "" "" country now nowRepo).res =
      .ok { r with password := "", country := country, updatedAt := nowRepo } ∧
    repoGetByID (updateUser st id "" "" "" "" country now nowRepo).store id =
      some { r with password := "", country := country, updatedAt := nowRepo } := by
  have hrid : r.id = id := by
    have := List.find?_some hfind
    simpa using this
  have hmem : r ∈ st := List.mem_of_find?_eq_some hfind
  have hgid : repoGetByID st id = some (selectRow r) := by
    simp [repoGetByID, hfind]
  have hidb : (id == "") = false := by simpa using hid
  have hcb : (country == "") = false := by simpa using hc
  have hex : ∃ x ∈ st, x.id = id := ⟨r, hmem, hrid⟩
  simp only [updateUser, hidb, Bool.false_eq_true, if_false, hgid,
    validateAndCheckEmail, validateAndCheckNickname, userUpdate, selectRow,
    repoUpdate, hcb, hrid, if_true]
  constructor
  · simp [hex]
  · simp [hex]
    have h2 := repoGetByID_map_update st id r (fun x =>
      { x with
        firstName := r.firstName,
        lastName := r.lastName,
        nickname := r.nickname,
        email := r.email,
        country := country,
        updatedAt := nowRepo }) hfind (fun x => rfl)
    simp only [repoGetByID]
    rw [h2]
    simp [selectRow, hrid]

/-- Witness for `c8_update_country_only` on the store `[ukUser]`. -/
theorem c8_update_country_only_witness :
    (updateUser [ukUser] "u2" "" "" "" "" "DE" 5 6).res =
      .ok { ukUser with password := "", country := "DE", updatedAt := 6 } ∧
    repoGetByID (updateUser [ukUser] "u2" "" "" "" "" "DE" 5 6).store "u2" =
      some { ukUser with password := "", country := "DE", updatedAt := 6 } :=
  c8_update_country_only [ukUser] "u2" "DE" ukUser 5 6 (by decide) (by decide)
    rfl

/-- Claim C9 (round-trip): for every user and emission instant, feeding the
serialized `user.created` envelope produced by `NotifyUserCreated` to the
subscriber's `processMessage` acknowledges the message and dispatches
exactly one handler — `HandleUserCreated` — with a payload equal to the
originating user (in particular the same id); no failure is logged. -/
theorem c9_roundtrip (u : User) (ts : Nat) :
    processMessage (Body.val (marshalEvent (notifyUserCreatedEvent u ts))) =
      { acked := true, calls := [.created u], logs := [] } := by
  obtain ⟨uid, uf, ul, un, upw, ue, uc, uca, uua⟩ := u
  cases hp : upw == ""
  · have hm : marshalUser ⟨uid, uf, ul, un, upw, ue, uc, uca, uua⟩ =
        Json.obj [("id", .str uid), ("first_name", .str uf),
          ("last_name", .str ul), ("nickname", .str un),
          ("password", .str upw), ("email", .str ue), ("country", .str uc),
          ("created_at", .num uca), ("updated_at", .num uua)] := by
      simp [marshalUser, hp]
    show processMessage (Body.val (marshalEvent
        ⟨"user.created", ts,
         marshalUser ⟨uid, uf, ul, un, upw, ue, uc, uca, uua⟩⟩)) = _
    rw [hm]
    rfl
  · have hpe : upw = "" := by simpa using hp
    subst hpe
    rfl

end UserMicroservice
